import Mathlib

/-!
# Verification of the open-intercom codec binding layer

Shallow embedding of `src/android/app/src/main/jni/opus_jni.c` — the JNI
binding that the mobile application uses to drive libopus encoder and
decoder instances — together with a model of the native opus library calls
the binding makes.

Modelling conventions:

* The native library state is a heap: an association list from pointer
  values (`Int`, matching the `jlong` handle type; live pointers are
  positive) to per-instance codec state. `opus_encoder_create` allocates a
  fresh pointer; `opus_encoder_destroy` frees it.
* The opus library itself is not part of this repository; its entry points
  (`opus_encoder_create`, `opus_encode`, `opus_decode`, `opus_encoder_ctl`
  requests, the destroy functions) are modelled from their documented
  contracts: per-instance state only, negative return codes on failure,
  byte count bounded by the supplied capacity, packet-loss concealment on
  an empty packet, bitrate clamping to the range 500 to 300000 per channel.
  The compressed payload itself is abstracted: `packetBytes` is an
  arbitrary executable function of the read samples and the encoder state,
  standing in for the actual compressor output size.
* Undefined behavior at the C level — dereferencing a dead or fabricated
  pointer, double free, reading or writing past a caller array — is
  modelled as `none`. A `some` result is a well-defined execution.
* JNI array pinning (`GetShortArrayElements` and friends) is modelled away:
  a Java array crossing the boundary becomes its element list, or, for
  pure output arrays, its length.
-/

/-! ## Data model: per-instance native codec state -/

/-- The signal hint an opus encoder carries (`OPUS_SET_SIGNAL`). -/
inductive SignalKind
  | auto
  | voice
  | music
deriving DecidableEq, Repr

/-- State of one live native encoder instance: the creation parameters,
the tunables reachable through `opus_encoder_ctl`, and an abstract counter
standing in for the predictive inter-frame context the codec advances on
every encode call. -/
structure EncState where
  sampleRate : Int
  channels : Int
  vbr : Bool
  complexity : Int
  signal : SignalKind
  bitrate : Int
  frames : Nat
deriving DecidableEq, Repr

/-- State of one live native decoder instance. -/
structure DecState where
  sampleRate : Int
  channels : Int
  frames : Nat
deriving DecidableEq, Repr

/-- A native instance is either an encoder or a decoder. -/
inductive NativeState
  | enc (e : EncState)
  | dec (d : DecState)
deriving DecidableEq, Repr

/-- The native heap: pointer values mapped to live instances. -/
abbrev Heap := List (Int × NativeState)

/-- Lookup of a pointer in the heap (first matching entry). -/
def hfind : Heap → Int → Option NativeState
  | [], _ => none
  | (q, s) :: t, p => if p = q then some s else hfind t p

/-- In-place update of the instance at a pointer (first matching entry);
identity when the pointer is not live. -/
def hupdate : Heap → Int → NativeState → Heap
  | [], _, _ => []
  | (q, t) :: r, p, s => if p = q then (q, s) :: r else (q, t) :: hupdate r p s

/-- Free of the entry at a pointer (first matching entry). -/
def hfree : Heap → Int → Heap
  | [], _ => []
  | (q, t) :: r, p => if p = q then r else (q, t) :: hfree r p

/-- Largest pointer value present in the heap (zero for the empty heap). -/
def keyMax (h : Heap) : Int := (h.map Prod.fst).foldr max 0

/-- A fresh, never-zero pointer value for an allocation. -/
def freshPtr (h : Heap) : Int := keyMax h + 1

/-! ## Constants of the opus API -/

def OPUS_OK : Int := 0
def OPUS_BAD_ARG : Int := -1
def OPUS_BUFFER_TOO_SMALL : Int := -2
def OPUS_INVALID_PACKET : Int := -4
def OPUS_ALLOC_FAIL : Int := -7
def OPUS_AUTO : Int := -1000
def OPUS_BITRATE_MAX : Int := -1
def OPUS_SIGNAL_VOICE : Int := 3001
def OPUS_SIGNAL_MUSIC : Int := 3002

/-- Sample rates opus accepts at creation. -/
def validSampleRate (sr : Int) : Bool :=
  sr == 8000 || sr == 12000 || sr == 16000 || sr == 24000 || sr == 48000

/-- Channel counts opus accepts at creation. -/
def validChannels (ch : Int) : Bool := ch == 1 || ch == 2

/-- Frame sizes (samples per channel) opus accepts at a sample rate: the
durations 2.5, 5, 10, 20, 40 and 60 ms. -/
def validFrameSize (sr fs : Int) : Bool :=
  fs == sr / 400 || fs == sr / 200 || fs == sr / 100 ||
  fs == sr / 50 || fs == sr / 25 || fs == 3 * sr / 50

/-! ## Model of the native opus entry points -/

/-- Tunable state of a freshly created encoder, per the opus documentation:
variable bitrate on, complexity 9, automatic signal detection, automatic
bitrate; no frames processed yet. -/
def defaultEnc (sr ch : Int) : EncState :=
  { sampleRate := sr, channels := ch, vbr := true, complexity := 9,
    signal := SignalKind.auto, bitrate := OPUS_AUTO, frames := 0 }

/-- `opus_encoder_create`: validates the sample rate and channel count,
then allocates (allocation success is the oracle input `allocOk`).
Returns the heap, the pointer (zero on failure, a fresh positive pointer on
success) and the error code. -/
def opus_encoder_create (h : Heap) (sr ch : Int) (allocOk : Bool) :
    Heap × Int × Int :=
  if !(validSampleRate sr && validChannels ch) then (h, 0, OPUS_BAD_ARG)
  else if !allocOk then (h, 0, OPUS_ALLOC_FAIL)
  else
    let p := freshPtr h
    ((p, NativeState.enc (defaultEnc sr ch)) :: h, p, OPUS_OK)

/-- `opus_decoder_create`: as for the encoder. -/
def opus_decoder_create (h : Heap) (sr ch : Int) (allocOk : Bool) :
    Heap × Int × Int :=
  if !(validSampleRate sr && validChannels ch) then (h, 0, OPUS_BAD_ARG)
  else if !allocOk then (h, 0, OPUS_ALLOC_FAIL)
  else
    let p := freshPtr h
    ((p, NativeState.dec { sampleRate := sr, channels := ch, frames := 0 }) :: h,
     p, OPUS_OK)

/-- `opus_encoder_ctl(enc, OPUS_SET_VBR(v))`: `v` must be 0 or 1; stores the
flag. Dereferencing a pointer that is not a live encoder is undefined. -/
def opus_ctl_set_vbr (h : Heap) (p v : Int) : Option (Heap × Int) :=
  match hfind h p with
  | some (NativeState.enc e) =>
      if v == 0 || v == 1 then
        some (hupdate h p (NativeState.enc { e with vbr := v == 1 }), OPUS_OK)
      else some (h, OPUS_BAD_ARG)
  | _ => none

/-- `opus_encoder_ctl(enc, OPUS_SET_COMPLEXITY(v))`: `v` in 0..10. -/
def opus_ctl_set_complexity (h : Heap) (p v : Int) : Option (Heap × Int) :=
  match hfind h p with
  | some (NativeState.enc e) =>
      if 0 ≤ v && v ≤ 10 then
        some (hupdate h p (NativeState.enc { e with complexity := v }), OPUS_OK)
      else some (h, OPUS_BAD_ARG)
  | _ => none

/-- `opus_encoder_ctl(enc, OPUS_SET_SIGNAL(v))`: voice, music or auto. -/
def opus_ctl_set_signal (h : Heap) (p v : Int) : Option (Heap × Int) :=
  match hfind h p with
  | some (NativeState.enc e) =>
      if v == OPUS_SIGNAL_VOICE then
        some (hupdate h p (NativeState.enc { e with signal := SignalKind.voice }), OPUS_OK)
      else if v == OPUS_SIGNAL_MUSIC then
        some (hupdate h p (NativeState.enc { e with signal := SignalKind.music }), OPUS_OK)
      else if v == OPUS_AUTO then
        some (hupdate h p (NativeState.enc { e with signal := SignalKind.auto }), OPUS_OK)
      else some (h, OPUS_BAD_ARG)
  | _ => none

/-- Bitrate clamping `opus_encoder_ctl(enc, OPUS_SET_BITRATE(v))` performs
on positive values: into the range 500 to 300000 per channel. -/
def clampBitrate (ch v : Int) : Int := max 500 (min (300000 * ch) v)

/-- `opus_encoder_ctl(enc, OPUS_SET_BITRATE(v))`: the sentinels
`OPUS_AUTO` and `OPUS_BITRATE_MAX` are stored as given; other
non-positive values are rejected with `OPUS_BAD_ARG`; positive values are
silently clamped into the supported range and stored. -/
def opus_ctl_set_bitrate (h : Heap) (p v : Int) : Option (Heap × Int) :=
  match hfind h p with
  | some (NativeState.enc e) =>
      if v == OPUS_AUTO || v == OPUS_BITRATE_MAX then
        some (hupdate h p (NativeState.enc { e with bitrate := v }), OPUS_OK)
      else if v ≤ 0 then some (h, OPUS_BAD_ARG)
      else
        some (hupdate h p
          (NativeState.enc { e with bitrate := clampBitrate e.channels v }), OPUS_OK)
  | _ => none

/-- Abstract size of the compressed payload the encoder would emit for the
read samples: an arbitrary executable stand-in for the compressor, a
function of the samples actually read and of the encoder state. -/
def packetBytes (e : EncState) (used : List Int) (fs : Int) : Nat :=
  (used.foldr (fun a b => (a.natAbs + 2 * b) % 1275) 0 + fs.toNat % 7 +
    e.frames % 5) % 1275 + 1

/-- `opus_encode(enc, pcm, frame_size, data, max_data_bytes)`: checks the
frame size against the sample rate, reads exactly `frame_size * channels`
samples from `pcm` (reading past the supplied buffer is undefined), requires
a positive capacity, and on success writes at most `maxBytes` bytes,
advances the predictive state and returns the byte count. -/
def opus_encode (h : Heap) (p : Int) (pcm : List Int) (frameSize : Int)
    (maxBytes : Nat) : Option (Heap × Int) :=
  match hfind h p with
  | some (NativeState.enc e) =>
      if !(validFrameSize e.sampleRate frameSize) then some (h, OPUS_BAD_ARG)
      else if pcm.length < (frameSize * e.channels).toNat then none
      else if maxBytes == 0 then some (h, OPUS_BUFFER_TOO_SMALL)
      else
        let used := pcm.take (frameSize * e.channels).toNat
        some (hupdate h p (NativeState.enc { e with frames := e.frames + 1 }),
              Int.ofNat (min maxBytes (packetBytes e used frameSize)))
  | _ => none

/-- Packets the decoder accepts: one opus frame is at most 1275 bytes.
An arbitrary executable stand-in for payload validation. -/
def packetWellFormed (data : List Int) : Bool := data.length ≤ 1275

/-- `opus_decode(dec, data, len, pcm, frame_size, decode_fec)`: checks the
frame size, needs `frame_size * channels` samples of space in the output
buffer (writing past it is undefined), and: a zero-length packet triggers
packet-loss concealment — a frame synthesized from prior state — while a
malformed nonempty packet fails with `OPUS_INVALID_PACKET`. On success
returns the decoded sample count per channel, here the full `frameSize`.
The `fec` flag requests decoding of redundancy from the packet; it does not
change the concealment path taken on an empty packet. -/
def opus_decode (h : Heap) (p : Int) (data : List Int) (len : Nat)
    (pcmLen : Nat) (frameSize : Int) (fec : Int) : Option (Heap × Int) :=
  match hfind h p with
  | some (NativeState.dec d) =>
      if !(validFrameSize d.sampleRate frameSize) then some (h, OPUS_BAD_ARG)
      else if pcmLen < (frameSize * d.channels).toNat then none
      else if len == 0 then
        some (hupdate h p (NativeState.dec { d with frames := d.frames + 1 }),
              frameSize)
      else if !(packetWellFormed data) then some (h, OPUS_INVALID_PACKET)
      else
        some (hupdate h p (NativeState.dec { d with frames := d.frames + 1 }),
              frameSize)
  | _ => none

/-- `opus_encoder_destroy` (and `opus_decoder_destroy`, identical at this
level: both free the instance): freeing a live pointer removes its entry;
freeing a dead or fabricated pointer is undefined. -/
def opus_destroy (h : Heap) (p : Int) : Option Heap :=
  if (hfind h p).isSome then some (hfree h p) else none

/-! ## The JNI binding, translated from `opus_jni.c` -/

/-- `Java_com_openintercommobile_OpusCodec_createEncoder`: calls
`opus_encoder_create`; on error returns 0; on success applies the three
`opus_encoder_ctl` calls — VBR on, complexity 10, voice signal — ignoring
their return codes, and returns the pointer as the handle. -/
def createEncoder (h : Heap) (sr ch : Int) (allocOk : Bool) :
    Option (Heap × Int) :=
  let r := opus_encoder_create h sr ch allocOk
  if r.2.2 != OPUS_OK then some (r.1, 0)
  else
    match opus_ctl_set_vbr r.1 r.2.1 1 with
    | none => none
    | some (h2, _) =>
      match opus_ctl_set_complexity h2 r.2.1 10 with
      | none => none
      | some (h3, _) =>
        match opus_ctl_set_signal h3 r.2.1 OPUS_SIGNAL_VOICE with
        | none => none
        | some (h4, _) => some (h4, r.2.1)

/-- `Java_com_openintercommobile_OpusCodec_createDecoder`: calls
`opus_decoder_create`; on error returns 0, else the pointer. -/
def createDecoder (h : Heap) (sr ch : Int) (allocOk : Bool) : Heap × Int :=
  let r := opus_decoder_create h sr ch allocOk
  if r.2.2 != OPUS_OK then (r.1, 0) else (r.1, r.2.1)

/-- `Java_com_openintercommobile_OpusCodec_encode`: casts the handle to an
encoder pointer without any check, pins the arrays, reads the output array
length `opusLen`, and returns `opus_encode(encoder, pcmData, frameSize,
opusData, opusLen)` verbatim. No validation of any argument. -/
def encode (h : Heap) (encoderPtr : Int) (pcm : List Int) (frameSize : Int)
    (opusLen : Nat) : Option (Heap × Int) :=
  opus_encode h encoderPtr pcm frameSize opusLen

/-- `Java_com_openintercommobile_OpusCodec_decode`: casts the handle to a
decoder pointer without any check, reads the packet array and its length,
and returns `opus_decode(decoder, opusData, opusLen, pcmData, frameSize, 0)`
verbatim — the FEC flag is hard-coded to 0 and not exposed to the caller.
`pcmLen` is the length of the caller output array (the binding never
passes it to the native layer; the native layer writes
`frameSize * channels` samples regardless). -/
def decode (h : Heap) (decoderPtr : Int) (opusData : List Int)
    (pcmLen : Nat) (frameSize : Int) : Option (Heap × Int) :=
  opus_decode h decoderPtr opusData opusData.length pcmLen frameSize 0

/-- `Java_com_openintercommobile_OpusCodec_destroyEncoder`: skips the call
when the handle is zero (the C null check), otherwise calls
`opus_encoder_destroy` on whatever the handle points to. -/
def destroyEncoder (h : Heap) (encoderPtr : Int) : Option Heap :=
  if encoderPtr == 0 then some h else opus_destroy h encoderPtr

/-- `Java_com_openintercommobile_OpusCodec_destroyDecoder`: same shape. -/
def destroyDecoder (h : Heap) (decoderPtr : Int) : Option Heap :=
  if decoderPtr == 0 then some h else opus_destroy h decoderPtr

/-- `Java_com_openintercommobile_OpusCodec_setBitrate`: skips the call when
the handle is zero, otherwise forwards the bitrate to
`opus_encoder_ctl(enc, OPUS_SET_BITRATE(bitrate))` and discards the
returned error code (the JNI function returns void). -/
def setBitrate (h : Heap) (encoderPtr bitrate : Int) : Option Heap :=
  if encoderPtr == 0 then some h
  else
    match opus_ctl_set_bitrate h encoderPtr bitrate with
    | some (h2, _) => some h2
    | none => none

/-! ## Heap lemmas -/

theorem hfind_hupdate_self (h : Heap) (p : Int) (s t : NativeState)
    (hp : hfind h p = some t) : hfind (hupdate h p s) p = some s := by
  induction h with
  | nil => simp [hfind] at hp
  | cons kv r ih =>
    obtain ⟨q, u⟩ := kv
    by_cases hq : p = q
    · simp [hfind, hupdate, hq]
    · simp only [hfind, hupdate, if_neg hq] at hp ⊢
      exact ih hp

theorem hfind_hupdate_other (h : Heap) (p q : Int) (s : NativeState)
    (hq : q ≠ p) : hfind (hupdate h p s) q = hfind h q := by
  induction h with
  | nil => simp [hupdate]
  | cons kv r ih =>
    obtain ⟨k, u⟩ := kv
    by_cases hk : p = k
    · subst hk
      simp [hfind, hupdate, if_neg hq]
    · simp only [hupdate, if_neg hk]
      by_cases hqk : q = k
      · simp [hfind, hqk]
      · simp only [hfind, if_neg hqk]
        exact ih

theorem hfind_hfree_other (h : Heap) (p q : Int) (hq : q ≠ p) :
    hfind (hfree h p) q = hfind h q := by
  induction h with
  | nil => simp [hfree]
  | cons kv r ih =>
    obtain ⟨k, u⟩ := kv
    by_cases hk : p = k
    · subst hk
      simp [hfind, hfree, if_neg hq]
    · simp only [hfree, if_neg hk]
      by_cases hqk : q = k
      · simp [hfind, hqk]
      · simp only [hfind, if_neg hqk]
        exact ih

theorem keyMax_nonneg (h : Heap) : 0 ≤ keyMax h := by
  induction h with
  | nil => simp [keyMax]
  | cons kv r ih =>
    simp only [keyMax, List.map_cons, List.foldr_cons] at ih ⊢
    exact le_max_of_le_right ih

theorem hfind_le_keyMax (h : Heap) (q : Int) (s : NativeState)
    (hq : hfind h q = some s) : q ≤ keyMax h := by
  induction h with
  | nil => simp [hfind] at hq
  | cons kv r ih =>
    obtain ⟨k, u⟩ := kv
    simp only [keyMax, List.map_cons, List.foldr_cons]
    by_cases hqk : q = k
    · subst hqk
      exact le_max_left _ _
    · simp only [hfind, if_neg hqk] at hq
      exact le_max_of_le_right (ih hq)

theorem freshPtr_pos (h : Heap) : 1 ≤ freshPtr h := by
  have := keyMax_nonneg h
  unfold freshPtr
  omega

theorem hfind_freshPtr (h : Heap) : hfind h (freshPtr h) = none := by
  cases hs : hfind h (freshPtr h) with
  | none => rfl
  | some s =>
    have h1 := hfind_le_keyMax h _ _ hs
    unfold freshPtr at h1
    omega

/-! ## Shape of creation -/

/-- A successful encoder creation: fresh pointer, default state with the
three startup ctl calls applied. -/
theorem createEncoder_success (h : Heap) (sr ch : Int)
    (hv : validSampleRate sr = true) (hc : validChannels ch = true) :
    createEncoder h sr ch true =
      some ((freshPtr h,
             NativeState.enc
               { sampleRate := sr, channels := ch, vbr := true,
                 complexity := 10, signal := SignalKind.voice,
                 bitrate := OPUS_AUTO, frames := 0 }) :: h, freshPtr h) := by
  simp [createEncoder, opus_encoder_create, opus_ctl_set_vbr,
        opus_ctl_set_complexity, opus_ctl_set_signal, hv, hc, hfind, hupdate,
        defaultEnc, OPUS_OK, OPUS_SIGNAL_VOICE, OPUS_AUTO]

/-- A failed encoder creation returns the zero handle and an unchanged
heap. -/
theorem createEncoder_failure (h : Heap) (sr ch : Int) (ok : Bool)
    (hv : ¬(validSampleRate sr = true ∧ validChannels ch = true ∧ ok = true)) :
    createEncoder h sr ch ok = some (h, 0) := by
  by_cases h1 : validSampleRate sr = true
  · by_cases h2 : validChannels ch = true
    · have h3 : ok = false := by
        cases ok
        · rfl
        · exact absurd ⟨h1, h2, rfl⟩ hv
      subst h3
      simp [createEncoder, opus_encoder_create, h1, h2, OPUS_OK,
            OPUS_ALLOC_FAIL]
    · simp [createEncoder, opus_encoder_create, h1, h2, OPUS_OK, OPUS_BAD_ARG]
  · simp [createEncoder, opus_encoder_create, h1, OPUS_OK, OPUS_BAD_ARG]

/-- A successful decoder creation. -/
theorem createDecoder_success (h : Heap) (sr ch : Int)
    (hv : validSampleRate sr = true) (hc : validChannels ch = true) :
    createDecoder h sr ch true =
      ((freshPtr h,
        NativeState.dec { sampleRate := sr, channels := ch, frames := 0 }) :: h,
       freshPtr h) := by
  simp [createDecoder, opus_decoder_create, hv, hc, OPUS_OK]

/-- A failed decoder creation. -/
theorem createDecoder_failure (h : Heap) (sr ch : Int) (ok : Bool)
    (hv : ¬(validSampleRate sr = true ∧ validChannels ch = true ∧ ok = true)) :
    createDecoder h sr ch ok = (h, 0) := by
  by_cases h1 : validSampleRate sr = true
  · by_cases h2 : validChannels ch = true
    · have h3 : ok = false := by
        cases ok
        · rfl
        · exact absurd ⟨h1, h2, rfl⟩ hv
      subst h3
      simp [createDecoder, opus_decoder_create, h1, h2, OPUS_OK,
            OPUS_ALLOC_FAIL]
    · simp [createDecoder, opus_decoder_create, h1, h2, OPUS_OK, OPUS_BAD_ARG]
  · simp [createDecoder, opus_decoder_create, h1, OPUS_OK, OPUS_BAD_ARG]

/-- At a creation-valid sample rate, every frame size the codec accepts is
positive. -/
theorem validFrameSize_pos (sr fs : Int)
    (hsr : validSampleRate sr = true) (hfs : validFrameSize sr fs = true) :
    0 < fs := by
  simp only [validSampleRate, Bool.or_eq_true, beq_iff_eq] at hsr
  rcases hsr with h8 | h12 | h16 | h24 | h48 <;> subst_vars <;>
    simp only [validFrameSize, Bool.or_eq_true, beq_iff_eq] at hfs <;>
    rcases hfs with h | h | h | h | h | h <;> omega

/-! ## Concrete instances used by witnesses -/

/-- The encoder state produced by a successful creation at 48 kHz mono. -/
def encW : EncState :=
  { sampleRate := 48000, channels := 1, vbr := true, complexity := 10,
    signal := SignalKind.voice, bitrate := OPUS_AUTO, frames := 0 }

/-- The heap after one successful encoder creation on the empty heap. -/
def heapW : Heap := [(1, NativeState.enc encW)]

/-! ## C5 -/

/-- C5: every successful `createEncoder` call returns a handle whose
encoder instance carries the fixed startup tuning — variable bitrate
enabled, complexity at the maximum level 10, voice signal hint — applied
before the handle is returned; the policy is not caller-configurable
(`createEncoder` takes no tuning inputs). -/
theorem C5_default_tuning (h : Heap) (sr ch : Int) (ok : Bool)
    (h2 : Heap) (p : Int)
    (hc : createEncoder h sr ch ok = some (h2, p)) (hp : p ≠ 0) :
    hfind h2 p =
      some (NativeState.enc
        { sampleRate := sr, channels := ch, vbr := true, complexity := 10,
          signal := SignalKind.voice, bitrate := OPUS_AUTO, frames := 0 }) := by
  by_cases hv : validSampleRate sr = true ∧ validChannels ch = true ∧ ok = true
  · obtain ⟨h1, hch, h3⟩ := hv
    subst h3
    rw [createEncoder_success h sr ch h1 hch] at hc
    simp only [Option.some.injEq, Prod.mk.injEq] at hc
    obtain ⟨rfl, rfl⟩ := hc
    simp [hfind]
  · rw [createEncoder_failure h sr ch ok hv] at hc
    simp only [Option.some.injEq, Prod.mk.injEq] at hc
    exact absurd hc.2.symm hp

/-- Witness for C5 at a concrete creation on the empty heap. -/
theorem C5_witness :
    createEncoder [] 48000 1 true = some (heapW, 1) ∧ (1 : Int) ≠ 0 ∧
    hfind heapW 1 = some (NativeState.enc
      { sampleRate := 48000, channels := 1, vbr := true, complexity := 10,
        signal := SignalKind.voice, bitrate := OPUS_AUTO, frames := 0 }) := by
  exact ⟨by decide, by decide,
         C5_default_tuning [] 48000 1 true heapW 1 (by decide) (by decide)⟩

/-! ## C7 -/

/-- C7: `createEncoder` and `createDecoder` return the reserved zero
handle exactly when native creation fails (invalid parameters or
allocation failure), and then the heap is unchanged — no entry is created;
every successful creation returns a handle that is at least 1, previously
dead and now live, so the zero handle is never assigned to a real
session. -/
theorem C7_zero_sentinel (h : Heap) (sr ch : Int) (ok : Bool) :
    (∀ h2 p, createEncoder h sr ch ok = some (h2, p) →
       ((p = 0 ↔
           ¬(validSampleRate sr = true ∧ validChannels ch = true ∧ ok = true)) ∧
        (p = 0 → h2 = h) ∧
        (p ≠ 0 → 1 ≤ p ∧ hfind h p = none ∧ (hfind h2 p).isSome = true))) ∧
    (((createDecoder h sr ch ok).2 = 0 ↔
        ¬(validSampleRate sr = true ∧ validChannels ch = true ∧ ok = true)) ∧
     ((createDecoder h sr ch ok).2 = 0 → (createDecoder h sr ch ok).1 = h) ∧
     ((createDecoder h sr ch ok).2 ≠ 0 →
        1 ≤ (createDecoder h sr ch ok).2 ∧
        hfind h (createDecoder h sr ch ok).2 = none ∧
        (hfind (createDecoder h sr ch ok).1 (createDecoder h sr ch ok).2).isSome
          = true)) := by
  by_cases hv : validSampleRate sr = true ∧ validChannels ch = true ∧ ok = true
  · obtain ⟨h1, hch, h3⟩ := hv
    subst h3
    have hfr := freshPtr_pos h
    constructor
    · intro h2 p hc
      rw [createEncoder_success h sr ch h1 hch] at hc
      simp only [Option.some.injEq, Prod.mk.injEq] at hc
      obtain ⟨rfl, rfl⟩ := hc
      refine ⟨⟨fun h0 => absurd h0 (by omega), fun hcon => absurd ⟨h1, hch, rfl⟩ hcon⟩,
              fun h0 => absurd h0 (by omega),
              fun _ => ⟨hfr, hfind_freshPtr h, by simp [hfind]⟩⟩
    · rw [createDecoder_success h sr ch h1 hch]
      refine ⟨⟨fun h0 => absurd h0 (by simpa using (by omega : ¬ freshPtr h = 0)),
              fun hcon => absurd ⟨h1, hch, rfl⟩ hcon⟩,
              fun h0 => absurd h0 (by simpa using (by omega : ¬ freshPtr h = 0)),
              fun _ => ⟨hfr, hfind_freshPtr h, by simp [hfind]⟩⟩
  · constructor
    · intro h2 p hc
      rw [createEncoder_failure h sr ch ok hv] at hc
      simp only [Option.some.injEq, Prod.mk.injEq] at hc
      obtain ⟨rfl, rfl⟩ := hc
      exact ⟨iff_of_true rfl hv, fun _ => rfl, fun hp => absurd rfl hp⟩
    · rw [createDecoder_failure h sr ch ok hv]
      exact ⟨iff_of_true rfl hv, fun _ => rfl, fun hp => absurd rfl hp⟩

/-- Witness for C7 at a concrete creation on the empty heap. -/
theorem C7_witness :
    createEncoder [] 48000 1 true = some (heapW, 1) ∧
    (((1 : Int) = 0 ↔
        ¬(validSampleRate 48000 = true ∧ validChannels 1 = true ∧ true = true)) ∧
     ((1 : Int) = 0 → heapW = []) ∧
     ((1 : Int) ≠ 0 → 1 ≤ (1 : Int) ∧ hfind [] 1 = none ∧
        (hfind heapW 1).isSome = true)) := by
  exact ⟨by decide, (C7_zero_sentinel [] 48000 1 true).1 heapW 1 (by decide)⟩

/-! ## C3 -/

/-- C3 counterexample: destroying the same handle twice is not safe. The
first destroy of handle 1 frees it; the second destroy of the very same
handle reaches the native destroy routine with a dead pointer — a double
free, modelled as undefined behavior — instead of being a no-op. -/
theorem C3_counterexample :
    destroyEncoder [(1, NativeState.enc (defaultEnc 48000 1))] 1 = some [] ∧
    destroyEncoder [] 1 = none := by
  decide

/-- C3 as the code has it: destroy with the zero handle is a no-op (the C
null check); destroy of a live nonzero handle frees exactly that entry,
leaving every other handle untouched; destroy of a nonzero handle that is
not live — already destroyed or fabricated — is forwarded to the native
destroy routine, which is undefined behavior, not a safe no-op. -/
theorem C3_destroy_behavior (h : Heap) (p : Int) :
    (destroyEncoder h 0 = some h ∧ destroyDecoder h 0 = some h) ∧
    (p ≠ 0 → (hfind h p).isSome = true →
       destroyEncoder h p = some (hfree h p) ∧
       destroyDecoder h p = some (hfree h p) ∧
       (∀ q, q ≠ p → hfind (hfree h p) q = hfind h q)) ∧
    (p ≠ 0 → hfind h p = none →
       destroyEncoder h p = none ∧ destroyDecoder h p = none) := by
  refine ⟨⟨by simp [destroyEncoder], by simp [destroyDecoder]⟩, ?_, ?_⟩
  · intro hp hl
    have hb : (p == 0) = false := by simp [hp]
    exact ⟨by simp [destroyEncoder, opus_destroy, hb, hl],
           by simp [destroyDecoder, opus_destroy, hb, hl],
           fun q hq => hfind_hfree_other h p q hq⟩
  · intro hp hl
    have hb : (p == 0) = false := by simp [hp]
    exact ⟨by simp [destroyEncoder, opus_destroy, hb, hl],
           by simp [destroyDecoder, opus_destroy, hb, hl]⟩

/-- Witness for C3 at concrete heaps. -/
theorem C3_witness :
    (1 : Int) ≠ 0 ∧ (hfind heapW 1).isSome = true ∧ hfind [] 2 = none ∧
    destroyEncoder heapW 1 = some (hfree heapW 1) ∧
    hfind (hfree heapW 1) 7 = hfind heapW 7 ∧
    destroyEncoder [] 2 = none := by
  refine ⟨by decide, by decide, by decide, ?_, ?_, ?_⟩
  · exact (((C3_destroy_behavior heapW 1).2.1 (by decide) (by decide)).1)
  · exact (((C3_destroy_behavior heapW 1).2.1 (by decide) (by decide)).2.2 7
      (by decide))
  · exact (((C3_destroy_behavior [] 2).2.2 (by decide) (by decide)).1)

/-! ## C4 -/

/-- C4 counterexample: operations on a fabricated (never-issued) handle do
not return an invalid-handle sentinel — the binding performs no handle
check at all, and the native layer dereferences the bogus pointer:
undefined behavior (`none`), not a clean error return. -/
theorem C4_counterexample :
    encode [] 1 [] 960 10 = none ∧
    decode [] 1 [] 1920 960 = none ∧
    setBitrate [] 1 64000 = none := by
  decide

/-- C4 as the code has it: no operation validates handles. With a handle
that has no live instance, `encode` and `decode` dereference it
unconditionally (undefined behavior, the zero handle included);
`setBitrate`, `destroyEncoder` and `destroyDecoder` skip only the zero
handle and dereference every other dead handle. -/
theorem C4_no_handle_validation (h : Heap) (p : Int) (pcm data : List Int)
    (fs b : Int) (cap pcmLen : Nat) (hp : hfind h p = none) :
    encode h p pcm fs cap = none ∧
    decode h p data pcmLen fs = none ∧
    (p ≠ 0 → setBitrate h p b = none ∧ destroyEncoder h p = none ∧
             destroyDecoder h p = none) ∧
    (p = 0 → setBitrate h p b = some h ∧ destroyEncoder h p = some h ∧
             destroyDecoder h p = some h) := by
  refine ⟨by simp [encode, opus_encode, hp], by simp [decode, opus_decode, hp],
          ?_, ?_⟩
  · intro hne
    have hb : (p == 0) = false := by simp [hne]
    exact ⟨by simp [setBitrate, opus_ctl_set_bitrate, hb, hp],
           by simp [destroyEncoder, opus_destroy, hb, hp],
           by simp [destroyDecoder, opus_destroy, hb, hp]⟩
  · intro h0
    subst h0
    simp [setBitrate, destroyEncoder, destroyDecoder]

/-- Witness for C4 on the empty heap with fabricated handle 1. -/
theorem C4_witness :
    hfind [] 1 = none ∧
    (encode [] 1 [] 960 10 = none ∧
     decode [] 1 [] 1920 960 = none ∧
     ((1 : Int) ≠ 0 → setBitrate [] 1 64000 = none ∧
        destroyEncoder [] 1 = none ∧ destroyDecoder [] 1 = none) ∧
     ((1 : Int) = 0 → setBitrate [] 1 64000 = some [] ∧
        destroyEncoder [] 1 = some [] ∧ destroyDecoder [] 1 = some [])) := by
  exact ⟨by decide, C4_no_handle_validation [] 1 [] [] 960 64000 10 1920
    (by decide)⟩

/-! ## Further concrete instances for witnesses and counterexamples -/

/-- A fresh 8 kHz mono encoder state. -/
def encE8 : EncState := defaultEnc 8000 1

/-- A heap holding one live encoder at handle 1. -/
def heapE8 : Heap := [(1, NativeState.enc encE8)]

/-- A 25-sample PCM buffer — not a multiple of any 8 kHz frame size. -/
def pcm25 : List Int := List.replicate 25 0

/-- A fresh 8 kHz stereo decoder state. -/
def decS : DecState := { sampleRate := 8000, channels := 2, frames := 0 }

/-- A heap holding one live stereo decoder at handle 1. -/
def heapDS : Heap := [(1, NativeState.dec decS)]

/-! ## C1 -/

/-- C1 counterexample: an encode call whose PCM buffer length (25) differs
from frameSize times channels (20) is not rejected — the native encode
routine runs on it, advances the encoder state and returns a byte
count. -/
theorem C1_counterexample :
    pcm25.length ≠ (20 * encE8.channels).toNat ∧
    encode heapE8 1 pcm25 20 100 =
      some ([(1, NativeState.enc { encE8 with frames := 1 })], 7) := by
  decide

/-- C1 as the code has it: `encode` performs no PCM length validation.
Every call on a live encoder with a codec-valid frame size, positive
output capacity and at least frameSize times channels samples available is
forwarded to the native encoder and succeeds, even when the buffer length
differs from frameSize times channels; the surplus samples are simply
never read, so the call behaves exactly like the call on the truncated,
exact-length buffer. (A buffer with fewer than frameSize times channels
samples is also forwarded; the native layer then reads out of bounds.) -/
theorem C1_no_length_validation (h : Heap) (p : Int) (e : EncState)
    (pcm : List Int) (fs : Int) (cap : Nat)
    (he : hfind h p = some (NativeState.enc e))
    (hfs : validFrameSize e.sampleRate fs = true)
    (hcap : 0 < cap)
    (hlen : (fs * e.channels).toNat ≤ pcm.length)
    (hmis : pcm.length ≠ (fs * e.channels).toNat) :
    encode h p pcm fs cap =
      some (hupdate h p (NativeState.enc { e with frames := e.frames + 1 }),
            Int.ofNat
              (min cap (packetBytes e (pcm.take (fs * e.channels).toNat) fs))) ∧
    encode h p pcm fs cap =
      encode h p (pcm.take (fs * e.channels).toNat) fs cap := by
  have hnl : ¬ pcm.length < (fs * e.channels).toNat := by omega
  have hc0 : (cap == 0) = false := beq_eq_false_iff_ne.mpr (by omega)
  constructor
  · simp [encode, opus_encode, he, hfs, hnl, hc0]
  · have htl : (pcm.take ((fs * e.channels).toNat)).length
        = (fs * e.channels).toNat := by
      simp only [List.length_take]
      omega
    have hnl2 : ¬ (pcm.take ((fs * e.channels).toNat)).length
        < (fs * e.channels).toNat := by omega
    simp [encode, opus_encode, he, hfs, hnl, hnl2, hc0, List.take_take] <;>
      omega

/-- Witness for C1 at the concrete mismatched call. -/
theorem C1_witness :
    hfind heapE8 1 = some (NativeState.enc encE8) ∧
    validFrameSize encE8.sampleRate 20 = true ∧
    (0 : Nat) < 100 ∧
    (20 * encE8.channels).toNat ≤ pcm25.length ∧
    pcm25.length ≠ (20 * encE8.channels).toNat ∧
    (encode heapE8 1 pcm25 20 100 =
       some (hupdate heapE8 1
               (NativeState.enc { encE8 with frames := encE8.frames + 1 }),
             Int.ofNat
               (min 100
                 (packetBytes encE8 (pcm25.take (20 * encE8.channels).toNat)
                   20))) ∧
     encode heapE8 1 pcm25 20 100 =
       encode heapE8 1 (pcm25.take (20 * encE8.channels).toNat) 20 100) := by
  exact ⟨by decide, by decide, by decide, by decide, by decide,
    C1_no_length_validation heapE8 1 encE8 pcm25 20 100 (by decide) (by decide)
      (by decide) (by decide) (by decide)⟩

/-! ## C2 -/

/-- C2 counterexample: on a live 2-channel decoder, decoding an empty
packet succeeds via concealment but returns 160 — the frame size, the
per-channel sample count — not frameSize times channels = 320 as the claim
states. (The claimed fecFlag=true cannot even be requested: the binding
hard-codes the FEC argument of the native decode call to 0.) -/
theorem C2_counterexample :
    decode heapDS 1 [] 320 160 =
      some ([(1, NativeState.dec { decS with frames := 1 })], 160) ∧
    (160 : Int) ≠ 160 * 2 := by
  decide

/-- C2 as the code has it: on every live decoder with a codec-valid frame
size and enough output space, decoding an empty packet succeeds through
packet-loss concealment — the native layer synthesizes a frame from prior
state, advancing it — and returns the non-negative per-channel sample
count `fs` (so `fs * channels` samples are written in total, but the
returned count is `fs`). The binding passes FEC = 0 unconditionally; no
fecFlag exists in its interface, and concealment on an empty packet does
not depend on it. -/
theorem C2_concealment (h : Heap) (p : Int) (d : DecState)
    (pcmLen : Nat) (fs : Int)
    (hd : hfind h p = some (NativeState.dec d))
    (hsr : validSampleRate d.sampleRate = true)
    (hfs : validFrameSize d.sampleRate fs = true)
    (hcap : (fs * d.channels).toNat ≤ pcmLen) :
    decode h p [] pcmLen fs =
      some (hupdate h p (NativeState.dec { d with frames := d.frames + 1 }),
            fs) ∧
    0 ≤ fs := by
  have hpos := validFrameSize_pos d.sampleRate fs hsr hfs
  have hnl : ¬ pcmLen < (fs * d.channels).toNat := by omega
  exact ⟨by simp [decode, opus_decode, hd, hfs, hnl], by omega⟩

/-- Witness for C2 at the concrete empty-packet call. -/
theorem C2_witness :
    hfind heapDS 1 = some (NativeState.dec decS) ∧
    validSampleRate decS.sampleRate = true ∧
    validFrameSize decS.sampleRate 160 = true ∧
    (160 * decS.channels).toNat ≤ 320 ∧
    (decode heapDS 1 [] 320 160 =
       some (hupdate heapDS 1
               (NativeState.dec { decS with frames := decS.frames + 1 }),
             160) ∧
     (0 : Int) ≤ 160) := by
  exact ⟨by decide, by decide, by decide, by decide,
    C2_concealment heapDS 1 decS 320 160 (by decide) (by decide) (by decide)
      (by decide)⟩

/-! ## C6 -/

/-- C6 counterexample: a bitrate far outside the supported range
(1000000000 bits per second) on a valid encoder handle is not rejected —
`setBitrate` returns void, the native error channel is discarded, and the
native layer silently clamps the value to 300000 and stores it. A
nonzero dead handle is not ignored either: the native control call
dereferences it (undefined behavior). -/
theorem C6_counterexample :
    setBitrate heapE8 1 1000000000 =
      some [(1, NativeState.enc { encE8 with bitrate := 300000 })] ∧
    setBitrate [] 5 64000 = none := by
  decide

/-- C6 as the code has it: `setBitrate` ignores only the zero handle. On a
live encoder handle it forwards the bitrate to the native control call
unconditionally and discards the returned error code — a value above the
supported range is silently clamped to 300000 per channel and applied,
never rejected (the binding has no error channel at all). On a nonzero
handle with no live instance the native call dereferences the dead
pointer: undefined behavior, not an ignored call. -/
theorem C6_setBitrate_behavior (h : Heap) (p b : Int) (e : EncState)
    (he : hfind h p = some (NativeState.enc e)) (hp : p ≠ 0)
    (hch : 1 ≤ e.channels) (hb : 300000 * e.channels < b) :
    setBitrate h 0 b = some h ∧
    setBitrate h p b =
      some (hupdate h p
        (NativeState.enc { e with bitrate := 300000 * e.channels })) ∧
    (∀ q : Int, q ≠ 0 → hfind h q = none → setBitrate h q b = none) := by
  refine ⟨by simp [setBitrate], ?_, ?_⟩
  · have hb0 : (p == 0) = false := beq_eq_false_iff_ne.mpr hp
    have hba : (b == OPUS_AUTO) = false := by
      refine beq_eq_false_iff_ne.mpr ?_
      unfold OPUS_AUTO
      omega
    have hbm : (b == OPUS_BITRATE_MAX) = false := by
      refine beq_eq_false_iff_ne.mpr ?_
      unfold OPUS_BITRATE_MAX
      omega
    have hbpos : ¬ b ≤ 0 := by omega
    have hcl : clampBitrate e.channels b = 300000 * e.channels := by
      unfold clampBitrate
      omega
    simp [setBitrate, opus_ctl_set_bitrate, he, hb0, hba, hbm, hbpos, hcl]
  · intro qq hq hn
    have hqb : (qq == 0) = false := beq_eq_false_iff_ne.mpr hq
    simp [setBitrate, opus_ctl_set_bitrate, hqb, hn]

/-- Witness for C6 at the concrete out-of-range call. -/
theorem C6_witness :
    hfind heapE8 1 = some (NativeState.enc encE8) ∧ (1 : Int) ≠ 0 ∧
    1 ≤ encE8.channels ∧ 300000 * encE8.channels < 1000000000 ∧
    (setBitrate heapE8 0 1000000000 = some heapE8 ∧
     setBitrate heapE8 1 1000000000 =
       some (hupdate heapE8 1
         (NativeState.enc { encE8 with bitrate := 300000 * encE8.channels })) ∧
     (∀ q : Int, q ≠ 0 → hfind heapE8 q = none →
        setBitrate heapE8 q 1000000000 = none)) := by
  exact ⟨by decide, by decide, by decide, by decide,
    C6_setBitrate_behavior heapE8 1 1000000000 encE8 (by decide) (by decide)
      (by decide) (by decide)⟩

/-! ## C8 -/

/-- C8: the binding returns the native encode and decode results verbatim,
so a negative value is exactly the failure signal — it arises precisely
when the native layer failed, the codec state is then unchanged, and a
negative value is never a byte count; a non-negative encode return is the
byte count written (the native count, bounded by the capacity) and a
non-negative decode return is the decoded sample count per channel. There
is no separate error channel. -/
theorem C8_negative_is_failure (h : Heap) (p q : Int) (e : EncState)
    (d : DecState) (pcm data : List Int) (fs fsd : Int) (cap pcmLen : Nat)
    (he : hfind h p = some (NativeState.enc e))
    (hlen : (fs * e.channels).toNat ≤ pcm.length)
    (hd : hfind h q = some (NativeState.dec d))
    (hsr : validSampleRate d.sampleRate = true)
    (hfsd : validFrameSize d.sampleRate fsd = true)
    (hdlen : (fsd * d.channels).toNat ≤ pcmLen) :
    (∀ h3 r, encode h p pcm fs cap = some (h3, r) →
       ((r < 0 ↔ ¬(validFrameSize e.sampleRate fs = true ∧ 0 < cap)) ∧
        (r < 0 → h3 = h) ∧
        (0 ≤ r → r = Int.ofNat (min cap
          (packetBytes e (pcm.take (fs * e.channels).toNat) fs))))) ∧
    (∀ h3 r, decode h q data pcmLen fsd = some (h3, r) →
       ((r < 0 ↔ data.length ≠ 0 ∧ packetWellFormed data = false) ∧
        (r < 0 → h3 = h) ∧
        (0 ≤ r → r = fsd))) := by
  have hnl : ¬ pcm.length < (fs * e.channels).toNat := by omega
  have hdnl : ¬ pcmLen < (fsd * d.channels).toNat := by omega
  have hpos := validFrameSize_pos d.sampleRate fsd hsr hfsd
  constructor
  · intro h3 r hr
    by_cases hfs : validFrameSize e.sampleRate fs = true
    · by_cases hcap : cap = 0
      · subst hcap
        simp [encode, opus_encode, he, hfs, hnl] at hr
        obtain ⟨rfl, rfl⟩ := hr
        refine ⟨iff_of_true (by decide) (fun hcon => absurd hcon.2 (by decide)),
                fun _ => rfl, fun hge => absurd hge (by decide)⟩
      · have hc0 : (cap == 0) = false := beq_eq_false_iff_ne.mpr hcap
        simp [encode, opus_encode, he, hfs, hnl, hc0] at hr
        obtain ⟨rfl, rfl⟩ := hr
        refine ⟨iff_of_false (by omega)
                  (fun hcon => hcon ⟨hfs, Nat.pos_of_ne_zero hcap⟩),
                fun hneg => absurd hneg (by omega),
                fun _ => by simp [Int.ofNat_eq_natCast, Nat.cast_min]⟩
    · have hfs2 : validFrameSize e.sampleRate fs = false := by
        cases hx : validFrameSize e.sampleRate fs
        · rfl
        · exact absurd hx hfs
      simp [encode, opus_encode, he, hfs2] at hr
      obtain ⟨rfl, rfl⟩ := hr
      refine ⟨iff_of_true (by decide) (fun hcon => hfs hcon.1), fun _ => rfl,
              fun hge => absurd hge (by decide)⟩
  · intro h3 r hr
    by_cases hl0 : data.length = 0
    · simp [decode, opus_decode, hd, hfsd, hdnl, hl0] at hr
      obtain ⟨rfl, rfl⟩ := hr
      refine ⟨iff_of_false (by omega) (fun hcon => hcon.1 hl0),
              fun hneg => absurd hneg (by omega), fun _ => rfl⟩
    · have hb0 : (data.length == 0) = false := beq_eq_false_iff_ne.mpr hl0
      by_cases hwf : packetWellFormed data = true
      · simp [decode, opus_decode, hd, hfsd, hdnl, hb0, hwf] at hr
        obtain ⟨rfl, rfl⟩ := hr
        refine ⟨iff_of_false (by omega)
                  (fun hcon => by rw [hwf] at hcon; exact absurd hcon.2 (by simp)),
                fun hneg => absurd hneg (by omega), fun _ => rfl⟩
      · have hwf2 : packetWellFormed data = false := by
          cases hx : packetWellFormed data
          · rfl
          · exact absurd hx hwf
        simp [decode, opus_decode, hd, hfsd, hdnl, hb0, hwf2] at hr
        obtain ⟨rfl, rfl⟩ := hr
        refine ⟨iff_of_true (by decide) ⟨hl0, hwf2⟩, fun _ => rfl,
                fun hge => absurd hge (by decide)⟩

/-- A heap with one live encoder (handle 1) and one live decoder
(handle 2), used by witnesses. -/
def heapB : Heap := [(1, NativeState.enc encE8), (2, NativeState.dec decS)]

/-- Witness for C8: a concrete successful encode (returns 7, a byte count)
and a concrete failed decode on a malformed 2000-byte packet (returns a
negative code with the heap unchanged). -/
theorem C8_witness :
    hfind heapB 1 = some (NativeState.enc encE8) ∧
    hfind heapB 2 = some (NativeState.dec decS) ∧
    encode heapB 1 (List.replicate 20 0) 20 100 =
      some ([(1, NativeState.enc { encE8 with frames := 1 }),
             (2, NativeState.dec decS)], 7) ∧
    decode heapB 2 (List.replicate 2000 0) 320 160 = some (heapB, -4) ∧
    (((7 : Int) < 0 ↔ ¬(validFrameSize encE8.sampleRate 20 = true ∧
        0 < 100)) ∧
     ((7 : Int) < 0 →
        [(1, NativeState.enc { encE8 with frames := 1 }),
         (2, NativeState.dec decS)] = heapB) ∧
     ((0 : Int) ≤ 7 → (7 : Int) = Int.ofNat (min 100
        (packetBytes encE8 ((List.replicate 20 0).take
          (20 * encE8.channels).toNat) 20)))) ∧
    (((-4 : Int) < 0 ↔ (List.replicate 2000 (0 : Int)).length ≠ 0 ∧
        packetWellFormed (List.replicate 2000 0) = false) ∧
     ((-4 : Int) < 0 → heapB = heapB) ∧
     ((0 : Int) ≤ -4 → (-4 : Int) = 160)) := by
  have hgen : ∀ l : List Int, l.length = 2000 →
      decode heapB 2 l 320 160 = some (heapB, -4) := by
    intro l hl
    have h1 : packetWellFormed l = false := by simp [packetWellFormed, hl]
    have h2 : validFrameSize (8000 : Int) 160 = true := by decide
    simp [decode, opus_decode, hfind, heapB, decS, hl, h1, h2,
          OPUS_INVALID_PACKET]
  have hdec : decode heapB 2 (List.replicate 2000 0) 320 160 =
      some (heapB, -4) :=
    hgen (List.replicate 2000 0) (List.length_replicate 2000 0)
  refine ⟨by decide, by decide, by decide, hdec, ?_, ?_⟩
  · exact (C8_negative_is_failure heapB 1 2 encE8 decS (List.replicate 20 0)
      (List.replicate 2000 0) 20 160 100 320 (by decide) (by decide)
      (by decide) (by decide) (by decide) (by decide)).1 _ 7 (by decide)
  · exact (C8_negative_is_failure heapB 1 2 encE8 decS (List.replicate 20 0)
      (List.replicate 2000 0) 20 160 100 320 (by decide) (by decide)
      (by decide) (by decide) (by decide) (by decide)).2 heapB (-4) hdec

/-! ## C9 -/

/-- C9: side effects are confined to the targeted instance. Every
well-defined `encode`, `decode` or `setBitrate` call on handle `p` leaves
the instance at every other handle `q` exactly as it was; and the
observable outcome at `p` — the return value and the new state of `p` —
is a function of the state at `p` and the call arguments alone, never of
any other instance: two heaps agreeing at `p` produce the same outcome. -/
theorem C9_isolation (h h2 : Heap) (p q : Int) (pcm data : List Int)
    (fs b : Int) (cap pcmLen : Nat) (hq : q ≠ p)
    (hagree : hfind h2 p = hfind h p) :
    (∀ h3 r, encode h p pcm fs cap = some (h3, r) →
       hfind h3 q = hfind h q) ∧
    (∀ h3 r, decode h p data pcmLen fs = some (h3, r) →
       hfind h3 q = hfind h q) ∧
    (∀ h3, setBitrate h p b = some h3 → hfind h3 q = hfind h q) ∧
    Option.map (fun x => (hfind x.1 p, x.2)) (encode h p pcm fs cap) =
      Option.map (fun x => (hfind x.1 p, x.2)) (encode h2 p pcm fs cap) ∧
    Option.map (fun x => (hfind x.1 p, x.2)) (decode h p data pcmLen fs) =
      Option.map (fun x => (hfind x.1 p, x.2)) (decode h2 p data pcmLen fs) ∧
    Option.map (fun x => hfind x p) (setBitrate h p b) =
      Option.map (fun x => hfind x p) (setBitrate h2 p b) := by
  refine ⟨?_, ?_, ?_, ?_, ?_, ?_⟩
  · intro h3 r hr
    cases hE : hfind h p with
    | none => simp [encode, opus_encode, hE] at hr
    | some s =>
      cases s with
      | dec dd => simp [encode, opus_encode, hE] at hr
      | enc e =>
        simp only [encode, opus_encode, hE] at hr
        split_ifs at hr <;>
          simp only [Option.some.injEq, Prod.mk.injEq, reduceCtorEq] at hr
        · obtain ⟨rfl, rfl⟩ := hr
          rfl
        · obtain ⟨rfl, rfl⟩ := hr
          rfl
        · obtain ⟨rfl, rfl⟩ := hr
          exact hfind_hupdate_other h p q _ hq
  · intro h3 r hr
    cases hE : hfind h p with
    | none => simp [decode, opus_decode, hE] at hr
    | some s =>
      cases s with
      | enc e => simp [decode, opus_decode, hE] at hr
      | dec dd =>
        simp only [decode, opus_decode, hE] at hr
        split_ifs at hr <;>
          simp only [Option.some.injEq, Prod.mk.injEq, reduceCtorEq] at hr
        · obtain ⟨rfl, rfl⟩ := hr
          rfl
        · obtain ⟨rfl, rfl⟩ := hr
          exact hfind_hupdate_other h p q _ hq
        · obtain ⟨rfl, rfl⟩ := hr
          rfl
        · obtain ⟨rfl, rfl⟩ := hr
          exact hfind_hupdate_other h p q _ hq
  · intro h3 hr
    by_cases hp0 : (p == 0) = true
    · simp only [setBitrate, hp0, if_true, Option.some.injEq] at hr
      subst hr
      rfl
    · have hb0 : (p == 0) = false := by
        cases hx : (p == 0)
        · rfl
        · exact absurd hx hp0
      cases hE : hfind h p with
      | none => simp [setBitrate, opus_ctl_set_bitrate, hb0, hE] at hr
      | some s =>
        cases s with
        | dec dd => simp [setBitrate, opus_ctl_set_bitrate, hb0, hE] at hr
        | enc e =>
          simp only [setBitrate, opus_ctl_set_bitrate, hb0, hE,
                     Bool.false_eq_true, if_false] at hr
          split_ifs at hr <;> simp only [Option.some.injEq] at hr
          · subst hr
            exact hfind_hupdate_other h p q _ hq
          · subst hr
            rfl
          · subst hr
            exact hfind_hupdate_other h p q _ hq
  · cases hE : hfind h p with
    | none =>
      have hE2 : hfind h2 p = none := hagree.trans hE
      simp [encode, opus_encode, hE, hE2]
    | some s =>
      have hE2 : hfind h2 p = some s := hagree.trans hE
      cases s with
      | dec dd => simp [encode, opus_encode, hE, hE2]
      | enc e =>
        simp only [encode, opus_encode, hE, hE2]
        split_ifs
        · simp [hagree]
        · rfl
        · simp [hagree]
        · simp [hfind_hupdate_self h p _ _ hE, hfind_hupdate_self h2 p _ _ hE2]
  · cases hE : hfind h p with
    | none =>
      have hE2 : hfind h2 p = none := hagree.trans hE
      simp [decode, opus_decode, hE, hE2]
    | some s =>
      have hE2 : hfind h2 p = some s := hagree.trans hE
      cases s with
      | enc e => simp [decode, opus_decode, hE, hE2]
      | dec dd =>
        simp only [decode, opus_decode, hE, hE2]
        split_ifs
        · simp [hagree]
        · rfl
        · simp [hfind_hupdate_self h p _ _ hE, hfind_hupdate_self h2 p _ _ hE2]
        · simp [hagree]
        · simp [hfind_hupdate_self h p _ _ hE, hfind_hupdate_self h2 p _ _ hE2]
  · by_cases hp0 : (p == 0) = true
    · simp [setBitrate, hp0, hagree]
    · have hb0 : (p == 0) = false := by
        cases hx : (p == 0)
        · rfl
        · exact absurd hx hp0
      cases hE : hfind h p with
      | none =>
        have hE2 : hfind h2 p = none := hagree.trans hE
        simp [setBitrate, opus_ctl_set_bitrate, hb0, hE, hE2]
      | some s =>
        have hE2 : hfind h2 p = some s := hagree.trans hE
        cases s with
        | dec dd => simp [setBitrate, opus_ctl_set_bitrate, hb0, hE, hE2]
        | enc e =>
          simp only [setBitrate, opus_ctl_set_bitrate, hb0, hE, hE2,
                     Bool.false_eq_true, if_false]
          split_ifs
          · simp [hfind_hupdate_self h p _ _ hE,
                  hfind_hupdate_self h2 p _ _ hE2]
          · simp [hagree]
          · simp [hfind_hupdate_self h p _ _ hE,
                  hfind_hupdate_self h2 p _ _ hE2]

/-- Witness for C9: two heaps agreeing at handle 1 (one holding a second
live decoder at handle 2, one not), a concrete encode on handle 1
preserving handle 2, and the matching observations at handle 1. -/
theorem C9_witness :
    (2 : Int) ≠ 1 ∧ hfind heapE8 1 = hfind heapB 1 ∧
    hfind [(1, NativeState.enc { encE8 with frames := 1 }),
           (2, NativeState.dec decS)] 2 = hfind heapB 2 ∧
    Option.map (fun x => (hfind x.1 1, x.2))
        (encode heapB 1 (List.replicate 20 0) 20 100) =
      Option.map (fun x => (hfind x.1 1, x.2))
        (encode heapE8 1 (List.replicate 20 0) 20 100) := by
  refine ⟨by decide, by decide, ?_, ?_⟩
  · exact (C9_isolation heapB heapE8 1 2 (List.replicate 20 0) [] 20 64000
      100 320 (by decide) (by decide)).1 _ 7 (by decide)
  · exact (C9_isolation heapB heapE8 1 2 (List.replicate 20 0) [] 20 64000
      100 320 (by decide) (by decide)).2.2.2.1

/-! ## C10 -/

/-- C10: the binding passes the output array length `opusLen` verbatim as
the native capacity bound (the pass-through identity below), and every
non-negative byte count a well-defined encode call returns is at most
`opusLen` — the compressed packet always fits the caller output array. -/
theorem C10_capacity_bound (h : Heap) (p : Int) (pcm : List Int) (fs : Int)
    (opusLen : Nat) (h3 : Heap) (r : Int)
    (hc : encode h p pcm fs opusLen = some (h3, r)) (hr : 0 ≤ r) :
    r ≤ (opusLen : Int) ∧
    encode h p pcm fs opusLen = opus_encode h p pcm fs opusLen := by
  refine ⟨?_, rfl⟩
  cases hE : hfind h p with
  | none => simp [encode, opus_encode, hE] at hc
  | some s =>
    cases s with
    | dec dd => simp [encode, opus_encode, hE] at hc
    | enc e =>
      simp only [encode, opus_encode, hE] at hc
      split_ifs at hc <;>
        simp only [Option.some.injEq, Prod.mk.injEq, reduceCtorEq] at hc
      · obtain ⟨rfl, rfl⟩ := hc
        exact absurd hr (by decide)
      · obtain ⟨rfl, rfl⟩ := hc
        exact absurd hr (by decide)
      · obtain ⟨rfl, rfl⟩ := hc
        have hm := Nat.min_le_left opusLen
          (packetBytes e (pcm.take (fs * e.channels).toNat) fs)
        simp only [Int.ofNat_eq_natCast]
        omega

/-- Witness for C10 at a concrete successful encode: 7 bytes written into
a 100-byte output array. -/
theorem C10_witness :
    encode heapE8 1 (List.replicate 20 0) 20 100 =
      some ([(1, NativeState.enc { encE8 with frames := 1 })], 7) ∧
    (0 : Int) ≤ 7 ∧
    ((7 : Int) ≤ ((100 : Nat) : Int) ∧
     encode heapE8 1 (List.replicate 20 0) 20 100 =
       opus_encode heapE8 1 (List.replicate 20 0) 20 100) := by
  exact ⟨by decide, by decide,
    C10_capacity_bound heapE8 1 (List.replicate 20 0) 20 100
      [(1, NativeState.enc { encE8 with frames := 1 })] 7 (by decide)
      (by decide)⟩
